import Mathlib

/-!
# k-releaser: verification of the release-engine specification

Shallow embedding of the parts of the `k-releaser` workspace that the
frozen claims talk about:

* `crates/next_version/src/version_increment.rs` — the version resolver
  (`VersionIncrement::from_commits_with_updater`, `from_conventional_commits`,
  `breaking`);
* `crates/k_releaser_core/src/command/update/updater.rs` — the commit
  walker (`get_all_commits_since_tag`, `get_package_diff`) and changelog
  synthesis (`get_workspace_changelog`);
* `crates/k_releaser_core/src/command/release.rs` — release dispatch
  (`release_packages`, `release_unified_workspace`,
  `extract_changelog_from_pr_body`);
* `crates/k_releaser_core/src/command/publish.rs` — the publish success
  detection (`publish_package_to_registry`).

Rust strings are modelled as `List Char` (the sources only manipulate
ASCII markers, for which Rust byte indices and character indices agree);
the helper functions below mirror the Rust `str` primitives (`find`,
`contains`, `split`, `trim`, `lines`) that the embedded code uses.
External collaborators (the git binary behind the `Repo` interface, the
`git_conventional` parser, the `git-cliff` template engine) are modelled
at their interfaces, as the specification prescribes for them.
-/

set_option maxRecDepth 100000

namespace KReleaser

/-! ## Rust string primitives over `List Char` -/

abbrev Chars := List Char

/-- Characters of a string literal. -/
def cs (s : String) : Chars := s.data

/-- Build a `String` back from characters. -/
def ofChars (l : Chars) : String := String.mk l

/-- Model of Rust `str::find(pat)` starting at index `i`:
index of the first occurrence of `pat` in `hay` (at or after the start),
`none` if there is none. -/
def findSubFrom (pat : Chars) : Chars → Nat → Option Nat
  | [], i => if pat.isPrefixOf ([] : Chars) then some i else none
  | c :: t, i =>
    if pat.isPrefixOf (c :: t) then some i else findSubFrom pat t (i + 1)

/-- Model of Rust `str::contains(pat)` for a substring pattern. -/
def containsSub (hay pat : Chars) : Bool := (findSubFrom pat hay 0).isSome

/-- Split on every non-overlapping occurrence of `sep`, left to right
(fuelled; with a non-empty separator the fuel `hay.length + 1` is never
exhausted). Mirrors Rust `str::split(sep)` collected into a vector. -/
def splitOnSubFuel (sep : Chars) : Nat → Chars → List Chars
  | 0, hay => [hay]
  | fuel + 1, hay =>
    match findSubFrom sep hay 0 with
    | none => [hay]
    | some i => hay.take i :: splitOnSubFuel sep fuel (hay.drop (i + sep.length))

/-- Model of Rust `str::split(sep)` (for the non-empty separators used in
the sources). -/
def splitOnSub (sep hay : Chars) : List Chars := splitOnSubFuel sep (hay.length + 1) hay

/-- Model of Rust `str::trim`: strip whitespace from both ends. -/
def trimChars (s : Chars) : Chars :=
  ((s.dropWhile Char.isWhitespace).reverse.dropWhile Char.isWhitespace).reverse

/-- Newline character as a one-element pattern. -/
def nl : Chars := ['\n']

/-- Model of Rust `str::lines` for strings without `\r`: split on `'\n'`,
without a final empty piece for a trailing newline. -/
def rustLines (s : Chars) : List Chars :=
  if s = [] then []
  else
    let parts := splitOnSub nl s
    if s.getLast? = some '\n' then parts.dropLast else parts

example : splitOnSub (cs ",") (cs "a,b,") = [cs "a", cs "b", []] := by decide
example : rustLines (cs "a\n\nb") = [cs "a", [], cs "b"] := by decide
example : trimChars (cs "  hi\n") = cs "hi" := by decide
example : findSubFrom (cs "bc") (cs "abcd") 0 = some 1 := by decide

/-! ## Data model: semantic versions and conventional commits

`semver::Version` is embedded as a numeric triple plus a pre-release tag
(`pre = ""` models `semver::Prerelease::EMPTY`); build metadata plays no
role in any claim. A parsed `git_conventional::Commit` is embedded by the
two observations the sources make of it: its type and whether it is
breaking (`!` marker or `BREAKING CHANGE:` footer). The parser itself is
the external `git_conventional` crate, so a raw message is embedded as
`Option ConventionalCommit`: `none` models a message that fails to parse
as a conventional commit. -/

structure SemVer where
  major : Nat
  minor : Nat
  patch : Nat
  pre : String
deriving DecidableEq, Repr

structure ConventionalCommit where
  type_ : String
  breaking : Bool
deriving DecidableEq, Repr

/-- `next_version::VersionIncrement` (version_increment.rs, lines 7-13). -/
inductive VersionIncrement where
  | Major
  | Minor
  | Patch
  | Prerelease
deriving DecidableEq, Repr

/-- `next_version::VersionUpdater`: the four configuration fields read by
`version_increment.rs`. The struct itself lives in the `next_version`
crate outside the given sources; its fields and defaults follow the uses
in `version_increment.rs` and the spec's option names
(`features_always_increment_minor`, `breaking_always_increment_major`,
custom major/minor regexes, all off by default). A regex is modelled as
the predicate it induces on commit types. -/
structure VersionUpdater where
  features_always_increment_minor : Bool := false
  breaking_always_increment_major : Bool := false
  custom_major_increment_regex : Option (String → Bool) := none
  custom_minor_increment_regex : Option (String → Bool) := none

/-- `is_there_a_custom_match` (version_increment.rs, lines 15-17). -/
def is_there_a_custom_match (regex : Option (String → Bool))
    (commits : List ConventionalCommit) : Bool :=
  match regex with
  | none => false
  | some r => commits.any (fun commit => r commit.type_)

/-- The commit-type filter closure of `from_commits_with_updater`
(version_increment.rs, lines 64-82): breaking commits are always
relevant; otherwise the types docs/style/refactor/perf/test/chore/ci are
excluded. -/
def is_relevant_commit (c : ConventionalCommit) : Bool :=
  c.breaking ||
    (c.type_ != "docs" && c.type_ != "style" && c.type_ != "refactor" &&
      c.type_ != "perf" && c.type_ != "test" && c.type_ != "chore" &&
      c.type_ != "ci")

/-- `VersionIncrement::from_conventional_commits`
(version_increment.rs, lines 127-165). -/
def from_conventional_commits (current : SemVer) (commits : List ConventionalCommit)
    (updater : VersionUpdater) : VersionIncrement :=
  let is_there_a_feature := commits.any (fun commit => commit.type_ == "feat")
  let is_there_a_breaking_change := commits.any (fun commit => commit.breaking)
  let is_major_bump :=
    (is_there_a_breaking_change ||
        is_there_a_custom_match updater.custom_major_increment_regex commits) &&
      (current.major != 0 || updater.breaking_always_increment_major)
  let is_feat_bump :=
    is_there_a_feature && (current.major != 0 || updater.features_always_increment_minor)
  let is_breaking_bump :=
    current.major == 0 && current.minor != 0 && is_there_a_breaking_change
  let is_minor_bump :=
    is_feat_bump || is_breaking_bump ||
      is_there_a_custom_match updater.custom_minor_increment_regex commits
  if is_major_bump then VersionIncrement.Major
  else if is_minor_bump then VersionIncrement.Minor
  else VersionIncrement.Patch

/-- `VersionIncrement::breaking` (version_increment.rs, lines 113-123). -/
def breaking_increment (current_version : SemVer) : VersionIncrement :=
  if current_version.pre ≠ "" then VersionIncrement.Prerelease
  else if current_version.major = 0 ∧ current_version.minor = 0 then VersionIncrement.Patch
  else if current_version.major = 0 then VersionIncrement.Minor
  else VersionIncrement.Major

/-- `VersionIncrement::from_commits_with_updater`
(version_increment.rs, lines 39-97). The input stream carries the result
of `git_conventional::Commit::parse` for each raw message (`none` for a
parse failure); the Rust `filter_map(|c| Commit::parse(c).ok())` becomes
`filterMap id`. -/
def from_commits_with_updater (updater : VersionUpdater) (current_version : SemVer)
    (commits : List (Option ConventionalCommit)) : Option VersionIncrement :=
  if commits.isEmpty then none
  else if current_version.pre ≠ "" then some VersionIncrement.Prerelease
  else
    let parsed := commits.filterMap id
    let relevant_commits := parsed.filter is_relevant_commit
    if relevant_commits.isEmpty then none
    else some (from_conventional_commits current_version relevant_commits updater)

/-! ### Version bumping

`increment_major/minor/patch/prerelease` live in the `next_version`
crate outside the given sources. The major/minor/patch increments are
the standard semver bumps the spec relies on (§3, §4.2); the pre-release
increment is modelled from the spec's statement that a `prerelease`
increment advances the pre-release tag (§3), bumping a trailing numeric
identifier. -/

/-- Digits of a natural number. -/
def natChars (n : Nat) : Chars := (Nat.toDigits 10 n)

/-- Value of a digit string. -/
def charsNat (l : Chars) : Nat := l.foldl (fun a c => a * 10 + (c.toNat - 48)) 0

/-- Modelled from the spec: pre-release advancement used by
`increment_prerelease` (next_version crate, outside the given sources):
bump a trailing numeric identifier, or append `.1`. -/
def bumpPre (pre : String) : String :=
  let parts := splitOnSub (cs ".") pre.data
  match parts.getLast? with
  | some last =>
    if last ≠ [] ∧ last.all Char.isDigit then
      ofChars (List.intercalate (cs ".") (parts.dropLast ++ [natChars (charsNat last + 1)]))
    else ofChars (pre.data ++ cs ".1")
  | none => "1"

/-- Modelled from the spec: `increment_major` (next_version crate). -/
def increment_major (v : SemVer) : SemVer := ⟨v.major + 1, 0, 0, ""⟩

/-- Modelled from the spec: `increment_minor` (next_version crate). -/
def increment_minor (v : SemVer) : SemVer := ⟨v.major, v.minor + 1, 0, ""⟩

/-- Modelled from the spec: `increment_patch` (next_version crate). -/
def increment_patch (v : SemVer) : SemVer := ⟨v.major, v.minor, v.patch + 1, ""⟩

/-- Modelled from the spec: `increment_prerelease` (next_version crate). -/
def increment_prerelease (v : SemVer) : SemVer := ⟨v.major, v.minor, v.patch, bumpPre v.pre⟩

/-- `VersionIncrement::bump` (version_increment.rs, lines 168-177). -/
def bump (i : VersionIncrement) (version : SemVer) : SemVer :=
  match i with
  | VersionIncrement.Major => increment_major version
  | VersionIncrement.Minor => increment_minor version
  | VersionIncrement.Patch => increment_patch version
  | VersionIncrement.Prerelease => increment_prerelease version

/-- The resolver's result as a version: `updater.increment` keeps the
current version when no increment is produced (updater.rs, lines
180-189, and `VersionUpdater::increment` in the next_version crate;
spec §4.2: "the next version equals `V` and no release is produced"). -/
def next_version_of (updater : VersionUpdater) (v : SemVer)
    (commits : List (Option ConventionalCommit)) : SemVer :=
  match from_commits_with_updater updater v commits with
  | none => v
  | some i => bump i v

/-- Strict ordering of the `(major, minor, patch)` triple under semver
(lexicographic) ordering, as used by the spec's invariant 2 (§8). -/
def triple_lt (x y : SemVer) : Prop :=
  x.major < y.major ∨
    (x.major = y.major ∧
      (x.minor < y.minor ∨ (x.minor = y.minor ∧ x.patch < y.patch)))

example :
    from_commits_with_updater {} ⟨0, 1, 0, ""⟩
      [some ⟨"feat", false⟩, some ⟨"chore", false⟩] = some VersionIncrement.Patch := by
  decide

example :
    from_commits_with_updater {} ⟨1, 1, 0, ""⟩ [some ⟨"feat", false⟩] =
      some VersionIncrement.Minor := by decide

example : breaking_increment ⟨0, 3, 3, ""⟩ = VersionIncrement.Minor := by decide
example : breaking_increment ⟨1, 3, 3, ""⟩ = VersionIncrement.Major := by decide
example : breaking_increment ⟨1, 3, 3, "alpha.1"⟩ = VersionIncrement.Prerelease := by decide

/-! ## The commit walker (updater.rs)

The git binary sits behind the `Repo` interface (an external collaborator
per the spec, §1). A repository is modelled as a list of commits, each
with a sha, a subject line, a body (empty when the message has no body)
and an ordered parent list; `git log` is modelled by graph traversal
with git's documented semantics:

* `--first-parent` follows only the first parent of each merge commit;
* the range `T..HEAD` excludes every commit reachable from `T`;
* `-<n>` limits the listing to the first `n` commits;
* `--format=%H%n%s%n%b%n--END-COMMIT--` prints, for each listed commit,
  its sha, its subject and its body on consecutive lines — `%s%n%b`
  separates subject and body by a single newline, not by a blank line —
  followed by the literal marker, each formatted entry terminated by a
  newline. -/

structure GCommit where
  sha : String
  subject : String
  body : String
  parents : List String
deriving DecidableEq, Repr

/-- The full git commit message of a modelled commit: subject, blank
line, body (just the subject when there is no body). -/
def fullMessage (c : GCommit) : String :=
  if c.body = "" then c.subject else c.subject ++ "\n\n" ++ c.body

/-- Find a commit by sha. -/
def lookupCommit (repo : List GCommit) (sha : String) : Option GCommit :=
  repo.find? (fun c => c.sha == sha)

/-- First-parent chain from a sha (fuelled by the repository size):
the commits `git log --first-parent` traverses from that commit. -/
def fpChain (repo : List GCommit) : Nat → String → List GCommit
  | 0, _ => []
  | fuel + 1, sha =>
    match lookupCommit repo sha with
    | none => []
    | some c =>
      c :: (match c.parents with
            | [] => []
            | p :: _ => fpChain repo fuel p)

/-- All shas reachable from a sha following every parent (the commit
itself included), fuelled by the repository size. -/
def ancestorShas (repo : List GCommit) : Nat → String → List String
  | 0, sha => [sha]
  | fuel + 1, sha =>
    match lookupCommit repo sha with
    | none => [sha]
    | some c => sha :: (c.parents.map (ancestorShas repo fuel)).flatten

/-- Model of `git log T..HEAD --first-parent`: first-parent traversal
from `head`, excluding commits reachable from the tag commit `t`. -/
def gitLogRangeFP (repo : List GCommit) (head t : String) : List GCommit :=
  (fpChain repo (repo.length + 1) head).filter
    (fun c => !(ancestorShas repo (repo.length + 1) t).contains c.sha)

/-- Model of `git log -<n> --first-parent`: the first `n` commits of the
first-parent traversal from `head`. -/
def gitLogLimitFP (repo : List GCommit) (head : String) (n : Nat) : List GCommit :=
  (fpChain repo (repo.length + 1) head).take n

/-- The per-commit text `--format=%H%n%s%n%b%n--END-COMMIT--` produces,
with the newline `git log` appends after each formatted entry. -/
def formatCommitEntry (c : GCommit) : Chars :=
  c.sha.data ++ nl ++ c.subject.data ++ nl ++ c.body.data ++ cs "--END-COMMIT--" ++ nl

/-- The whole stdout of the modelled `git log` invocation. -/
def gitLogOutput (commits : List GCommit) : Chars :=
  (commits.map formatCommitEntry).flatten

/-- The output-parsing loop of `get_all_commits_since_tag`
(updater.rs, lines 563-578): split on `--END-COMMIT--`, trim each chunk,
skip empty chunks, take the first line as the hash and re-join the
remaining lines with `\n` as the captured message. Returns
`(hash, message)` pairs (the `Commit::new` calls). -/
def parse_git_log_output (output : Chars) : List (String × String) :=
  (splitOnSub (cs "--END-COMMIT--") output).foldl
    (fun commits commit_str =>
      let commit_str := trimChars commit_str
      if commit_str = [] then commits
      else
        match rustLines commit_str with
        | [] => commits
        | hash :: rest =>
          commits ++ [(ofChars hash, ofChars (List.intercalate nl rest))])
    []

/-- The commit-count limit `get_all_commits_since_tag` uses when no tag
exists (updater.rs, lines 546-549): a configured `0` is replaced by
`1000` ("Default reasonable limit"). -/
def unified_no_tag_limit (max_analyze_commits_cfg : Nat) : Nat :=
  if max_analyze_commits_cfg = 0 then 1000 else max_analyze_commits_cfg

/-- The iteration bound `get_package_diff` uses when no tag exists
(updater.rs, lines 406-414): a configured `0` is replaced by `u32::MAX`. -/
def per_package_no_tag_limit (max_analyze_commits_cfg : Nat) : Nat :=
  if max_analyze_commits_cfg = 0 then 4294967295 else max_analyze_commits_cfg

/-- Modelled from the spec: `DEFAULT_MAX_ANALYZE_COMMITS` (declared in
`update_request.rs`, which is not among the given sources; the spec
fixes the default of `max_analyze_commits` at 1000, §4.1). -/
def DEFAULT_MAX_ANALYZE_COMMITS : Nat := 1000

/-- The commit selection of `get_all_commits_since_tag`
(updater.rs, lines 538-551): the commit range `{tag}..HEAD` when the tag
commit exists, otherwise `-{max_commits}`, both with `--first-parent`.
`tag_commit` is the result of `repository.get_tag_commit(git_tag)`. -/
def unified_walk (repo : List GCommit) (head : String) (tag_commit : Option String)
    (max_analyze_commits_cfg : Nat) : List GCommit :=
  match tag_commit with
  | some t => gitLogRangeFP repo head t
  | none => gitLogLimitFP repo head (unified_no_tag_limit max_analyze_commits_cfg)

/-- `Updater::get_all_commits_since_tag` (updater.rs, lines 533-582):
run the modelled `git log`, then parse its output. -/
def get_all_commits_since_tag (repo : List GCommit) (head : String)
    (tag_commit : Option String) (max_analyze_commits_cfg : Nat) :
    List (String × String) :=
  parse_git_log_output (gitLogOutput (unified_walk repo head tag_commit max_analyze_commits_cfg))

/-! Scenario S1 of the spec (§8): a `feat:` commit on the second parent
of a true merge. `c0` carries the tag `v0.1.0`; `f1` is the feature
commit on the side branch; `m` merges the side branch into main. -/

def s1Repo : List GCommit :=
  [ { sha := "c3", subject := "chore: workspace versions", body := "", parents := ["m"] },
    { sha := "m", subject := "Merge branch feature", body := "", parents := ["c2", "f1"] },
    { sha := "c2", subject := "chore: version update", body := "", parents := ["c1"] },
    { sha := "f1", subject := "feat: improved UI", body := "", parents := ["c1"] },
    { sha := "c1", subject := "ci: add workflow", body := "", parents := ["c0"] },
    { sha := "c0", subject := "chore: init", body := "", parents := [] } ]

example :
    (unified_walk s1Repo "c3" (some "c0") 1000).map GCommit.sha = ["c3", "m", "c2", "c1"] := by
  decide

example :
    (get_all_commits_since_tag s1Repo "c3" (some "c0") 1000).map Prod.fst =
      ["c3", "m", "c2", "c1"] := by decide

/-- The repository of the message-capture scenario: one commit after the
tagged commit, whose message carries a body (and hence a
`BREAKING CHANGE:`-capable blank line in its full message). -/
def bodyRepo : List GCommit :=
  [ { sha := "b1", subject := "feat: improved UI (#966)",
      body := "More modern and consistent UI", parents := ["b0"] },
    { sha := "b0", subject := "chore: init", body := "", parents := [] } ]

example :
    get_all_commits_since_tag bodyRepo "b1" (some "b0") 1000 =
      [("b1", "feat: improved UI (#966)\nMore modern and consistent UI")] := by decide

/-! ### A parametric linear history

Used to reason about the no-tag walk bound without evaluating
thousand-commit lists: `linRepo n` is a straight-line history of `n`
commits, `natSha 0` the head and `natSha (n - 1)` the root. -/

/-- Distinct shas, injective by length. -/
def natSha (i : Nat) : String := ofChars (List.replicate i 'x')

/-- The `i`-th commit of a linear history of `n` commits. -/
def linCommit (n i : Nat) : GCommit :=
  { sha := natSha i, subject := "feat: x", body := "",
    parents := if i + 1 = n then [] else [natSha (i + 1)] }

/-- A linear history of `n` commits, newest first. -/
def linRepo (n : Nat) : List GCommit := (List.range n).map (linCommit n)

/-! ## Changelog synthesis (updater.rs)

The changelog template engine (`git-cliff`) is an external collaborator:
the spec consumes it as a pure function `render(commits, context) ->
string` (§1). `ChangelogBuilder` and `changelog_parser` live in
`k_releaser_core` outside the given sources; they are modelled from the
spec's contract for them (§4.3): the builder renders a new section for
the next version, `prepend` splices it before the most recent prior
section — returning the old changelog unchanged when its most recent
version already equals the next version (round-trip stability, also
exercised by the in-source test `same_version_is_not_added_to_changelog`)
— and `last_version_from_str` reads the version of the first
version-header line (`## [X.Y.Z]`). -/

/-- The `git_cliff_core::config::Config` fields the embedded code reads:
the changelog header and footer overridden by `new_changelog_entry`. -/
structure CliffConfig where
  header : Option String := none
  footer : Option String := none
deriving DecidableEq, Repr

/-- `ChangelogRequest`: the fields read by `get_workspace_changelog`. -/
structure ChangelogRequest where
  release_date : Option String := none
  changelog_config : Option CliffConfig := none

/-- The state accumulated by the `ChangelogBuilder` fluent calls in
`get_workspace_changelog`. -/
structure ChangelogBuilderM where
  commits : List String
  version : String
  package : String
  release_date : Option String := none
  config : Option CliffConfig := none
  release_link : Option String := none
  remote : Option String := none
  pr_link : Option String := none
  previous_version : Option String := none

/-- Version of a changelog version-header line `## [X.Y.Z] ...`. -/
def header_version (line : Chars) : Option Chars :=
  if (cs "## [").isPrefixOf line then
    some ((line.drop 4).takeWhile (fun c => c ≠ ']'))
  else none

/-- Modelled from the spec: `changelog_parser::last_version_from_str`
(outside the given sources; §4.3: scan top-down for the first
version-header line and read its version). -/
def last_version_from_str (s : String) : Option String :=
  (splitOnSub nl s.data).findSome? (fun line => (header_version line).map ofChars)

/-- Modelled from the spec: the default header the renderer uses when no
configuration overrides it. -/
def defaultChangelogHeader : String := "# Changelog\n"

/-- Modelled from the spec: the rendered new section for the builder's
version (the template engine is consumed as a pure function, §1). -/
def renderSection (b : ChangelogBuilderM) : String :=
  "## [" ++ b.version ++ "]\n" ++ String.join (b.commits.map (fun m => "- " ++ m ++ "\n"))

/-- Modelled from the spec: `ChangelogBuilder::build().generate()` —
header, new section, footer. -/
def generateModel (b : ChangelogBuilderM) : String :=
  match b.config with
  | some c => c.header.getD defaultChangelogHeader ++ renderSection b ++ c.footer.getD ""
  | none => defaultChangelogHeader ++ renderSection b

/-- Modelled from the spec: `ChangelogBuilder::build().prepend(old)` —
keep the old changelog unchanged when its most recent version equals the
next version (round-trip stability, §4.3), otherwise splice the new
section before the most recent prior section, preserving the header. -/
def prependModel (b : ChangelogBuilderM) (old : String) : String :=
  if last_version_from_str old = some b.version then old
  else
    match findSubFrom (cs "## [") old.data 0 with
    | some i => ofChars (old.data.take i ++ (renderSection b).data ++ old.data.drop i)
    | none => old ++ renderSection b

/-- `new_changelog_entry` (updater.rs, lines 776-795): when the builder
has a configuration, re-render with empty header and footer and trim;
otherwise `none`. -/
def new_changelog_entry (changelog_builder : ChangelogBuilderM) : Option String :=
  changelog_builder.config.map (fun c =>
    let new_config : CliffConfig := { c with header := some "", footer := some "" }
    ofChars (trimChars (generateModel { changelog_builder with config := some new_config }).data))

/-- The common tail of `get_workspace_changelog` (updater.rs, lines
691-698): build, prepend over any old changelog, and pair with the
body-only entry. -/
def finish_changelog (old_changelog : Option String) (b : ChangelogBuilderM) :
    String × String :=
  let changelog :=
    match old_changelog with
    | some old => prependModel b old
    | none => generateModel b
  (changelog, (new_changelog_entry b).getD "")

/-- The fluent builder chain of `get_workspace_changelog` (updater.rs,
lines 642-669): apply release date, changelog config, release link and
remote/PR-link when present. -/
def build_workspace_builder (commits : List String) (next_version : String)
    (changelog_req : ChangelogRequest) (release_link : Option String)
    (repo_url : Option String) : ChangelogBuilderM :=
  let changelog_builder : ChangelogBuilderM :=
    { commits := commits, version := next_version, package := "workspace" }
  let b :=
    match changelog_req.release_date with
    | some release_date => { changelog_builder with release_date := some release_date }
    | none => changelog_builder
  let b :=
    match changelog_req.changelog_config with
    | some config => { b with config := some config }
    | none => b
  let b :=
    match release_link with
    | some link => { b with release_link := some link }
    | none => b
  match repo_url with
  | some u => { b with remote := some u, pr_link := some u }
  | none => b

/-- `get_workspace_changelog` (updater.rs, lines 629-699). Commits are
carried as their messages (the cliff-commit conversion keeps the message
and remote metadata; only the message reaches the modelled renderer).
The `changelog_req = none` case takes the bare builder straight to the
build/prepend tail. -/
def get_workspace_changelog (commits : List String) (next_version : String)
    (changelog_req : Option ChangelogRequest) (old_changelog : Option String)
    (repo_url : Option String) (release_link : Option String)
    (current_version : String) : String × String :=
  match changelog_req with
  | none =>
    finish_changelog old_changelog
      { commits := commits, version := next_version, package := "workspace" }
  | some changelog_req =>
    let b := build_workspace_builder commits next_version changelog_req release_link repo_url
    let is_new_version := next_version ≠ current_version
    let last_version := old_changelog.bind (fun old => last_version_from_str old)
    if is_new_version then
      let lv := last_version.getD current_version
      finish_changelog old_changelog { b with previous_version := some lv }
    else
      match last_version, old_changelog with
      | some lv, some old =>
        if lv = next_version then (old, "")
        else finish_changelog old_changelog b
      | _, _ => finish_changelog old_changelog b

/-! ## Release-notes extraction from a PR body (release.rs) -/

/-- `extract_changelog_from_pr_body` (release.rs, lines 529-547). Rust
byte indices become character indices (the markers are ASCII). -/
def extract_changelog_from_pr_body (pr_body : String) : String :=
  match findSubFrom (cs "<details>") pr_body.data 0 with
  | some start =>
    match findSubFrom (cs "</details>") (pr_body.data.drop start) 0 with
    | some endIdx =>
      let details_content := (pr_body.data.drop start).take endIdx
      match findSubFrom (cs "</summary>") details_content 0 with
      | some summary_end =>
        ofChars (trimChars (details_content.drop (summary_end + (cs "</summary>").length)))
      | none => pr_body
    | none => pr_body
  | none => pr_body

example : extract_changelog_from_pr_body "no details here" = "no details here" := by decide
example :
    extract_changelog_from_pr_body "a<details><summary>x</summary> hi </details>z" = "hi" := by
  decide

/-! ## Publish success detection (publish.rs) -/

/-- The "already uploaded" substring `publish_package_to_registry`
searches for (publish.rs, lines 503-506). -/
def already_uploaded_msg (version : String) : String :=
  "crate version `" ++ version ++ "` is already uploaded"

/-- The outcome of `publish_package_to_registry` after the `cargo
publish` subprocess returns (publish.rs, lines 499-528), as a function
of the exit status, the captured stderr, the package version and the
dry-run flag: `Except.error` models the `bail!`, `Except.ok b` the
`Ok(b)` results (`false` = skipped, `true` = published after the index
settles). -/
def publish_package_outcome (status_success : Bool) (stderr : String)
    (version : String) (dry_run : Bool) : Except String Bool :=
  if !status_success || !containsSub stderr.data (cs "Uploading") ||
      containsSub stderr.data (cs "error:") then
    if containsSub stderr.data (already_uploaded_msg version).data then
      Except.ok false
    else
      Except.error ("failed to publish: " ++ stderr)
  else if dry_run then Except.ok false
  else Except.ok true

/-- The published-output entry for a package (publish.rs, lines 411-415):
`package_was_published.then_some(PackagePublish { .. })`. -/
def package_publish_entry (package_name version tag : String)
    (package_was_published : Bool) : Option (String × String × String) :=
  if package_was_published then some (package_name, version, tag) else none

/-! ## Release dispatch (release.rs)

The forge, the repository and the configured project templates sit
behind interfaces; `ReleaseEnv` carries their responses: `tag_for`
models `project.git_tag`, `release_name_tpl` models
`project.release_name`, `tag_exists` the remote tag check,
`changelog_entry` the result of `get_workspace_changelog_entry`,
`last_changelog_entry` the per-package changelog lookup, `prs_from_text`
the PR-number extraction, `was_released` the successful result of
`release_package`, and `name_template` whether a custom release-name
template is configured. -/

structure RPackage where
  name : String
  version : SemVer
deriving DecidableEq, Repr

structure PackageRelease where
  package_name : String
  prs : List Nat
  tag : String
  version : SemVer
deriving DecidableEq, Repr

structure ReleaseEnv where
  tag_for : String → String
  release_name_tpl : String → String → String
  tag_exists : String → Bool
  changelog_entry : String
  last_changelog_entry : RPackage → String
  prs_from_text : String → List Nat
  was_released : Bool
  name_template : Option String := none

/-- `semver::Version` display form. -/
def verString (v : SemVer) : String :=
  toString v.major ++ "." ++ toString v.minor ++ "." ++ toString v.patch ++
    (if v.pre = "" then "" else "-" ++ v.pre)

/-- `release_package_if_needed` (release.rs, lines 615-653): skip when
the tag already exists, otherwise release and report
`PackageRelease { package_name, version, tag, prs }` when the package
was released. -/
def release_package_if_needed (env : ReleaseEnv) (package : RPackage) :
    Option PackageRelease :=
  let git_tag := env.tag_for (verString package.version)
  let _release_name := env.release_name_tpl package.name (verString package.version)
  if env.tag_exists git_tag then none
  else
    let changelog := env.last_changelog_entry package
    let prs := env.prs_from_text changelog
    if env.was_released then
      some { package_name := package.name, version := package.version,
             tag := git_tag, prs := prs }
    else none

/-- `release_unified_workspace` (release.rs, lines 550-613): one release
for the whole workspace, named "workspace", tagged from the shared
version. -/
def release_unified_workspace (env : ReleaseEnv) (packages : List RPackage) :
    Option (List PackageRelease) :=
  match packages with
  | [] => none
  | first :: _ =>
    let version := first.version
    let git_tag := env.tag_for (verString version)
    if env.tag_exists git_tag then none
    else
      let changelog_entry := env.changelog_entry
      let prs := env.prs_from_text changelog_entry
      let _release_name :=
        match env.name_template with
        | some _ => env.release_name_tpl "workspace" (verString version)
        | none => "Version " ++ verString version
      if env.was_released then
        some [{ package_name := "workspace", prs := prs, tag := git_tag,
                version := version }]
      else none

/-- The unified-workspace dispatch condition of `release_packages`
(release.rs, lines 476-480): all publishable packages share the first
package's version, and there is more than one of them. -/
def is_unified_dispatch (packages : List RPackage) : Bool :=
  match packages with
  | [] => false
  | first :: _ =>
    packages.all (fun p => p.version == first.version) && decide (1 < packages.length)

/-- `release_packages` (release.rs, lines 463-499): nothing to release
on an empty publishable set; the single workspace release when the
unified dispatch condition holds; otherwise one release per package,
`None` when no package produced one. -/
def release_packages (env : ReleaseEnv) (packages : List RPackage) :
    Option (List PackageRelease) :=
  match packages with
  | [] => none
  | _ :: _ =>
    if is_unified_dispatch packages then release_unified_workspace env packages
    else
      let package_releases := packages.filterMap (release_package_if_needed env)
      if package_releases.isEmpty then none else some package_releases

/-! ## Theorems -/

/-- C1: the claim says the commit walker enumerates commits with
full-history traversal, so that a `feat:` commit authored on a side
branch and integrated through a true merge appears in the collected
list. The walker (`get_all_commits_since_tag`) passes `--first-parent`:
on the spec's scenario S1, the feature commit `f1` — reachable from the
head, not reachable from the tag commit, i.e. exactly a commit the range
`v0.1.0..HEAD` contains — is absent from the collected commits, so it
cannot influence the computed next version. The repository's own
integration test (`feat_on_second_parent_of_merge_is_detected`, "The fix
removes `--first-parent`") contradicts the code: code bug. -/
theorem c1_first_parent_walker_drops_side_branch_feat :
    (get_all_commits_since_tag s1Repo "c3" (some "c0") 1000).map Prod.fst =
      ["c3", "m", "c2", "c1"] ∧
    "f1" ∉ (get_all_commits_since_tag s1Repo "c3" (some "c0") 1000).map Prod.fst ∧
    "f1" ∈ ancestorShas s1Repo (s1Repo.length + 1) "c3" ∧
    "f1" ∉ ancestorShas s1Repo (s1Repo.length + 1) "c0" ∧
    (lookupCommit s1Repo "f1").map GCommit.subject = some "feat: improved UI" := by
  decide

/-- C2: the claim says the captured commit message preserves the full
message — subject, blank line, body. The walker's format `%H%n%s%n%b`
joins subject and body with a single newline: for a commit whose full
message is `"feat: improved UI (#966)\n\nMore modern and consistent UI"`
the captured message lacks the blank line, which the repository's own
test `feat_without_blank_line_fails_to_parse` documents as the message
shape the conventional-commit parser rejects: code bug. -/
theorem c2_capture_format_drops_blank_line :
    get_all_commits_since_tag bodyRepo "b1" (some "b0") 1000 =
      [("b1", "feat: improved UI (#966)\nMore modern and consistent UI")] ∧
    (lookupCommit bodyRepo "b1").map fullMessage =
      some "feat: improved UI (#966)\n\nMore modern and consistent UI" ∧
    ("feat: improved UI (#966)\nMore modern and consistent UI" : String) ≠
      "feat: improved UI (#966)\n\nMore modern and consistent UI" := by
  decide

/-- C3: the claim (and the resolver's own doc comment, version_increment.rs
lines 26-27) says a non-empty stream of messages that all fail to parse as
conventional commits yields a patch increment. The code filters parse
failures out entirely and returns no increment at all (`None`), leaving
the version unchanged: code bug. The input models one commit whose
message (e.g. `"simple update"`) fails conventional parsing. -/
theorem c3_unparseable_stream_yields_no_increment :
    from_commits_with_updater {} ⟨1, 2, 3, ""⟩ [none] = none ∧
    next_version_of {} ⟨1, 2, 3, ""⟩ [none] = ⟨1, 2, 3, ""⟩ := by
  decide

/-- C4 (counterexample): the claim says a stream with only irrelevant
commits leaves the version unchanged "including when V carries a
pre-release tag". With `V = 1.0.0-alpha.1` and a single `docs:` commit,
the resolver answers `Prerelease` before any filtering, and the resulting
version differs from `V`: the claim as stated is false. -/
theorem c4_counterexample_prerelease_stream :
    from_commits_with_updater {} ⟨1, 0, 0, "alpha.1"⟩ [some ⟨"docs", false⟩] =
      some VersionIncrement.Prerelease ∧
    next_version_of {} ⟨1, 0, 0, "alpha.1"⟩ [some ⟨"docs", false⟩] ≠
      ⟨1, 0, 0, "alpha.1"⟩ := by
  decide

/-- C4 (amended): for every current version with an *empty* pre-release
tag and every commit stream whose parseable commits are all irrelevant
(docs/style/refactor/perf/test/chore/ci, none breaking), the resolver
returns no increment and the version stays unchanged. When the version
carries a pre-release tag and the stream is non-empty, a prerelease
increment is produced instead. -/
theorem c4_irrelevant_commits_leave_version_unchanged
    (u : VersionUpdater) (v : SemVer) (commits : List (Option ConventionalCommit))
    (hpre : v.pre = "")
    (hirr : ∀ c ∈ commits.filterMap id, is_relevant_commit c = false) :
    from_commits_with_updater u v commits = none ∧ next_version_of u v commits = v := by
  have hrel : (commits.filterMap id).filter is_relevant_commit = [] :=
    List.filter_eq_nil_iff.mpr (by intro c hc; simp [hirr c hc])
  have h2 : from_commits_with_updater u v commits = none := by
    unfold from_commits_with_updater
    by_cases hcommits : commits.isEmpty
    · simp [hcommits]
    · simp [hcommits, hpre, hrel]
  exact ⟨h2, by unfold next_version_of; rw [h2]⟩

/-- Witness for `c4_irrelevant_commits_leave_version_unchanged` at
`V = 0.2.0` and a stream of one `docs:` commit and one parse failure. -/
theorem c4_irrelevant_commits_leave_version_unchanged_witness :
    from_commits_with_updater {} ⟨0, 2, 0, ""⟩ [some ⟨"docs", false⟩, none] = none ∧
    next_version_of {} ⟨0, 2, 0, ""⟩ [some ⟨"docs", false⟩, none] = ⟨0, 2, 0, ""⟩ :=
  c4_irrelevant_commits_leave_version_unchanged {} ⟨0, 2, 0, ""⟩
    [some ⟨"docs", false⟩, none] rfl (by decide)

/-- C5 (counterexample): the claim says a breaking commit at
`V.major = 0 ∧ V.minor = 0` yields a patch increment (with `major`
reserved for `V.major ≥ 1` or `breaking_always_increment_major`). With
`V = 0.0.1`, a breaking `feat!` commit, and
`features_always_increment_minor` set, the code answers `Minor`, not the
`Patch` the claim predicts: the claim as stated is false. -/
theorem c5_counterexample_feat_breaking_zero_zero :
    from_conventional_commits ⟨0, 0, 1, ""⟩ [⟨"feat", true⟩]
      { features_always_increment_minor := true } = VersionIncrement.Minor ∧
    VersionIncrement.Minor ≠ VersionIncrement.Patch := by
  constructor
  · rfl
  · decide

/-- C5 (amended): for every version with an empty pre-release tag and
every filtered commit list containing a breaking commit, the increment
is `major` exactly when `V.major ≠ 0` or `breaking_always_increment_major`
is set; otherwise `minor` exactly when `V.minor ≠ 0`, or a `feat` commit
is present with `features_always_increment_minor` set, or the custom
minor-increment regex matches; otherwise `patch`. In every case the next
version's `(major, minor, patch)` triple is strictly greater than `V`'s
under semver ordering. -/
theorem c5_breaking_bump_characterization
    (u : VersionUpdater) (v : SemVer) (commits : List ConventionalCommit)
    (_hpre : v.pre = "") (hbr : ∃ c ∈ commits, c.breaking = true) :
    (from_conventional_commits v commits u =
      if (v.major != 0 || u.breaking_always_increment_major) = true then
        VersionIncrement.Major
      else if (v.minor != 0 ||
          (commits.any (fun commit => commit.type_ == "feat") &&
            u.features_always_increment_minor) ||
          is_there_a_custom_match u.custom_minor_increment_regex commits) = true then
        VersionIncrement.Minor
      else VersionIncrement.Patch) ∧
    triple_lt v (bump (from_conventional_commits v commits u) v) := by
  rcases hbr with ⟨c, hc, hcb⟩
  have brk : commits.any (fun commit => commit.breaking) = true :=
    List.any_eq_true.mpr ⟨c, hc, hcb⟩
  have hnp : from_conventional_commits v commits u ≠ VersionIncrement.Prerelease := by
    simp only [from_conventional_commits]
    split
    · decide
    · split <;> decide
  constructor
  · simp only [from_conventional_commits, brk, Bool.true_or, Bool.or_true, Bool.true_and,
      Bool.and_true]
    by_cases hm : v.major = 0
    · simp only [hm, bne_self_eq_false, Bool.false_or, beq_self_eq_true, Bool.true_and]
      generalize u.breaking_always_increment_major = B
      generalize (v.minor != 0) = C
      generalize commits.any (fun commit => commit.type_ == "feat") = D
      generalize u.features_always_increment_minor = E
      generalize is_there_a_custom_match u.custom_minor_increment_regex commits = F
      revert B C D E F
      decide
    · have hm2 : (v.major != 0) = true := by simpa using hm
      simp [hm2]
  · cases hinc : from_conventional_commits v commits u with
    | Major =>
      simp [bump, increment_major, triple_lt]
    | Minor =>
      simp [bump, increment_minor, triple_lt]
    | Patch =>
      simp [bump, increment_patch, triple_lt]
    | Prerelease => exact absurd hinc hnp

/-- Witness for `c5_breaking_bump_characterization` at `V = 1.2.3` with
a single breaking `fix!` commit and default options: a major bump. -/
theorem c5_breaking_bump_characterization_witness :
    from_conventional_commits ⟨1, 2, 3, ""⟩ [⟨"fix", true⟩] {} = VersionIncrement.Major ∧
    triple_lt ⟨1, 2, 3, ""⟩
      (bump (from_conventional_commits ⟨1, 2, 3, ""⟩ [⟨"fix", true⟩] {}) ⟨1, 2, 3, ""⟩) := by
  have h := c5_breaking_bump_characterization {} ⟨1, 2, 3, ""⟩ [⟨"fix", true⟩] rfl
    ⟨⟨"fix", true⟩, by decide, rfl⟩
  refine ⟨h.1.trans ?_, h.2⟩
  rfl

/-- The version field survives the whole builder chain. -/
theorem build_workspace_builder_version (commits : List String) (next_version : String)
    (changelog_req : ChangelogRequest) (release_link : Option String)
    (repo_url : Option String) :
    (build_workspace_builder commits next_version changelog_req release_link
      repo_url).version = next_version := by
  unfold build_workspace_builder
  cases changelog_req.release_date <;> cases changelog_req.changelog_config <;>
    cases release_link <;> cases repo_url <;> rfl

/-- C6 (counterexample): the claim says that whenever the most recent
version recorded in the existing changelog equals the computed next
version, synthesis returns the old changelog together with an *empty
delta*. With a changelog config present and a next version (1.1.0) that
differs from the current version (1.0.0) while equalling the changelog's
most recent recorded version, the old changelog is indeed returned
unchanged but the delta is the freshly rendered section, not empty: the
claim as stated is false. -/
theorem c6_counterexample_nonempty_delta :
    (get_workspace_changelog ["fix: x"] "1.1.0"
        (some { changelog_config := some { header := some "H\n", footer := some "" } })
        (some "H\n## [1.1.0]\n- old\n") none none "1.0.0").fst =
      "H\n## [1.1.0]\n- old\n" ∧
    (get_workspace_changelog ["fix: x"] "1.1.0"
        (some { changelog_config := some { header := some "H\n", footer := some "" } })
        (some "H\n## [1.1.0]\n- old\n") none none "1.0.0").snd ≠ "" := by
  constructor
  · rfl
  · decide

/-- C6 (amended): whenever the most recent version recorded in the
existing changelog equals the computed next version, synthesis returns
the existing changelog unchanged byte-for-byte; the delta is moreover
empty whenever the next version also equals the current version (the
re-run-on-an-already-prepared-tree case), so that re-running the engine
is a no-op there. (With a changelog config and `next ≠ current` the
delta is instead the freshly rendered section.) -/
theorem c6_round_trip_stability (commits : List String) (next_version : String)
    (changelog_req : Option ChangelogRequest) (old : String)
    (repo_url release_link : Option String) (current_version : String)
    (hlast : last_version_from_str old = some next_version) :
    (get_workspace_changelog commits next_version changelog_req (some old) repo_url
        release_link current_version).fst = old ∧
    (next_version = current_version →
      (get_workspace_changelog commits next_version changelog_req (some old) repo_url
          release_link current_version).snd = "") := by
  cases changelog_req with
  | none =>
    constructor
    · simp [get_workspace_changelog, finish_changelog, prependModel, hlast]
    · intro _
      simp [get_workspace_changelog, finish_changelog, new_changelog_entry]
  | some req =>
    by_cases hnv : next_version = current_version
    · subst hnv
      constructor
      · simp [get_workspace_changelog, hlast]
      · intro _
        simp [get_workspace_changelog, hlast]
    · constructor
      · simp only [get_workspace_changelog]
        rw [if_pos hnv]
        simp [finish_changelog, prependModel, hlast, build_workspace_builder_version]
      · intro h
        exact absurd h hnv

/-- Witness for `c6_round_trip_stability`: next version 0.2.0 equal to
the current version, recorded at the top of the existing changelog. -/
theorem c6_round_trip_stability_witness :
    (get_workspace_changelog ["fix: y"] "0.2.0" (some {})
        (some "# C\n## [0.2.0]\n- z\n") none none "0.2.0").fst =
      "# C\n## [0.2.0]\n- z\n" ∧
    (get_workspace_changelog ["fix: y"] "0.2.0" (some {})
        (some "# C\n## [0.2.0]\n- z\n") none none "0.2.0").snd = "" := by
  have h := c6_round_trip_stability ["fix: y"] "0.2.0" (some {})
    "# C\n## [0.2.0]\n- z\n" none none "0.2.0" (by decide)
  exact ⟨h.1, h.2 rfl⟩

/-- C7: `extract_changelog_from_pr_body` returns the whole body
unchanged when no `<details>` tag is found; when the body has
`<details>`, a closing `</details>` after it and a `</summary>` inside
that block, it returns the text strictly between the end of the first
`</summary>` and the closing `</details>`, trimmed. Positions are
phrased over the whole body: the block runs from the first `<details>`
(at `start`) to the closing `</details>` (at `start + endIdx`), and the
first `</summary>` inside it ends at `start + summary_end + 10`. -/
theorem c7_extract_changelog_spec (pr_body : String) :
    (findSubFrom (cs "<details>") pr_body.data 0 = none →
      extract_changelog_from_pr_body pr_body = pr_body) ∧
    (∀ start endIdx summary_end,
      findSubFrom (cs "<details>") pr_body.data 0 = some start →
      findSubFrom (cs "</details>") (pr_body.data.drop start) 0 = some endIdx →
      findSubFrom (cs "</summary>") ((pr_body.data.drop start).take endIdx) 0 =
        some summary_end →
      extract_changelog_from_pr_body pr_body =
        ofChars (trimChars
          ((pr_body.data.drop (start + summary_end + 10)).take
            (endIdx - summary_end - 10)))) := by
  constructor
  · intro h
    simp [extract_changelog_from_pr_body, h]
  · intro start endIdx summary_end h1 h2 h3
    simp only [extract_changelog_from_pr_body, h1, h2, h3]
    have hlen : (cs "</summary>").length = 10 := rfl
    rw [hlen, List.drop_take, List.drop_drop]
    congr 3

/-- Witness for `c7_extract_changelog_spec`: both branches at concrete
bodies (the second mirrors the in-source test
`test_extract_changelog_from_pr_body_without_details_tag`). -/
theorem c7_extract_changelog_spec_witness :
    extract_changelog_from_pr_body "a<details><summary>x</summary> hi </details>z" = "hi" ∧
    extract_changelog_from_pr_body "Some custom PR body without details tag" =
      "Some custom PR body without details tag" := by
  constructor
  · have h := (c7_extract_changelog_spec
      "a<details><summary>x</summary> hi </details>z").2 1 33 19
      (by decide) (by decide) (by decide)
    rw [h]
    decide
  · exact (c7_extract_changelog_spec "Some custom PR body without details tag").1 (by decide)

/-- C8: whenever the `cargo publish` subprocess shows a failure signal —
non-zero exit status, no "Uploading" on stderr, or an `error:` on
stderr — the package publish is a fatal error, unless stderr contains
the "crate version `V` is already uploaded" message, in which case the
package is skipped without error (`Ok(false)`) and consequently excluded
from the published output. -/
theorem c8_publish_failure_handling (status_success : Bool) (stderr version : String)
    (dry_run : Bool) (package_name tag : String)
    (hfail : status_success = false ∨
      containsSub stderr.data (cs "Uploading") = false ∨
      containsSub stderr.data (cs "error:") = true) :
    (containsSub stderr.data (already_uploaded_msg version).data = true →
      publish_package_outcome status_success stderr version dry_run = Except.ok false ∧
      package_publish_entry package_name version tag false = none) ∧
    (containsSub stderr.data (already_uploaded_msg version).data = false →
      publish_package_outcome status_success stderr version dry_run =
        Except.error ("failed to publish: " ++ stderr)) := by
  have hcond : (!status_success || !containsSub stderr.data (cs "Uploading") ||
      containsSub stderr.data (cs "error:")) = true := by
    rcases hfail with h | h | h <;> simp [h]
  refine ⟨fun hup => ⟨?_, rfl⟩, fun hup => ?_⟩
  · simp [publish_package_outcome, hcond, hup]
  · simp [publish_package_outcome, hcond, hup]

/-- Witness for `c8_publish_failure_handling`: an `error:` line together
with the already-uploaded message yields the skip, and exclusion from
the published output. -/
theorem c8_publish_failure_handling_witness :
    publish_package_outcome true "error: crate version `1.2.3` is already uploaded"
      "1.2.3" false = Except.ok false ∧
    package_publish_entry "p" "1.2.3" "v1.2.3" false = none := by
  have h := c8_publish_failure_handling true
    "error: crate version `1.2.3` is already uploaded" "1.2.3" false "p" "v1.2.3"
    (Or.inr (Or.inr (by decide)))
  exact h.1 (by decide)

/-- C10: with a non-empty publishable set, the release controller takes
the unified-workspace path exactly when there is more than one
publishable package and all of them share the first package's version;
a single publishable package always goes down the per-package path. The
unified path yields at most one release, reported for package
"workspace" and tagged from the shared version. -/
theorem c10_release_dispatch (env : ReleaseEnv) (first : RPackage)
    (rest : List RPackage) :
    (is_unified_dispatch (first :: rest) = true ↔
      1 < (first :: rest).length ∧ ∀ p ∈ first :: rest, p.version = first.version) ∧
    (rest = [] → is_unified_dispatch (first :: rest) = false) ∧
    (∀ rs, release_unified_workspace env (first :: rest) = some rs →
      rs.length ≤ 1 ∧
        ∀ r ∈ rs, r.package_name = "workspace" ∧
          r.tag = env.tag_for (verString first.version)) ∧
    (is_unified_dispatch (first :: rest) = true →
      release_packages env (first :: rest) = release_unified_workspace env (first :: rest)) ∧
    (is_unified_dispatch (first :: rest) = false →
      release_packages env (first :: rest) =
        (if ((first :: rest).filterMap (release_package_if_needed env)).isEmpty then none
         else some ((first :: rest).filterMap (release_package_if_needed env)))) := by
  refine ⟨?_, ?_, ?_, ?_, ?_⟩
  · simp only [is_unified_dispatch, Bool.and_eq_true, List.all_eq_true, beq_iff_eq,
      decide_eq_true_eq]
    exact and_comm
  · intro h
    subst h
    simp [is_unified_dispatch]
  · intro rs h
    simp only [release_unified_workspace] at h
    split_ifs at h with h1 h2
    replace h := Option.some.inj h
    subst h
    simp
  · intro h
    simp [release_packages, h]
  · intro h
    simp [release_packages, h]

/-- Witness for `c10_release_dispatch`: two packages sharing version
1.0.0 dispatch to the unified path and produce the single "workspace"
release; dropping one package leaves the per-package path. -/
theorem c10_release_dispatch_witness :
    is_unified_dispatch [⟨"a", ⟨1, 0, 0, ""⟩⟩, ⟨"b", ⟨1, 0, 0, ""⟩⟩] = true ∧
    release_packages
        { tag_for := fun v => "v" ++ v, release_name_tpl := fun _ v => v,
          tag_exists := fun _ => false, changelog_entry := "",
          last_changelog_entry := fun _ => "", prs_from_text := fun _ => [],
          was_released := true }
        [⟨"a", ⟨1, 0, 0, ""⟩⟩, ⟨"b", ⟨1, 0, 0, ""⟩⟩] =
      some [⟨"workspace", [], "v1.0.0", ⟨1, 0, 0, ""⟩⟩] ∧
    is_unified_dispatch [⟨"a", ⟨1, 0, 0, ""⟩⟩] = false := by
  have h := c10_release_dispatch
    { tag_for := fun v => "v" ++ v, release_name_tpl := fun _ v => v,
      tag_exists := fun _ => false, changelog_entry := "",
      last_changelog_entry := fun _ => "", prs_from_text := fun _ => [],
      was_released := true }
    ⟨"a", ⟨1, 0, 0, ""⟩⟩ [⟨"b", ⟨1, 0, 0, ""⟩⟩]
  have hu : is_unified_dispatch [(⟨"a", ⟨1, 0, 0, ""⟩⟩ : RPackage), ⟨"b", ⟨1, 0, 0, ""⟩⟩] =
      true := h.1.mpr ⟨by decide, by decide⟩
  refine ⟨hu, ?_, ?_⟩
  · rw [h.2.2.2.1 hu]
    rfl
  · have h2 := c10_release_dispatch
      { tag_for := fun v => "v" ++ v, release_name_tpl := fun _ v => v,
        tag_exists := fun _ => false, changelog_entry := "",
        last_changelog_entry := fun _ => "", prs_from_text := fun _ => [],
        was_released := true }
      ⟨"a", ⟨1, 0, 0, ""⟩⟩ []
    exact h2.2.1 rfl

/-- `find?` returns the unique element satisfying the predicate. -/
theorem find_first_unique {α : Type} (p : α → Bool) (l : List α) (a : α)
    (ha : a ∈ l) (hpa : p a = true) (huniq : ∀ b ∈ l, p b = true → b = a) :
    l.find? p = some a := by
  induction l with
  | nil => cases ha
  | cons x xs ih =>
    by_cases hx : p x = true
    · have hxa : x = a := huniq x (List.mem_cons_self x xs) hx
      subst hxa
      simp [List.find?, hx]
    · have hxf : p x = false := by simpa using hx
      rw [List.find?_cons, hxf]
      have hax : a ∈ xs := by
        rcases List.mem_cons.mp ha with rfl | h
        · exact absurd hpa hx
        · exact h
      exact ih hax (fun b hb hpb => huniq b (List.mem_cons_of_mem x hb) hpb)

/-- The shas of the linear history are distinct. -/
theorem natSha_injective {i j : Nat} (h : natSha i = natSha j) : i = j := by
  have h2 := congrArg String.length h
  simpa [natSha, ofChars, String.length] using h2

/-- Looking up the `i`-th commit of the linear history. -/
theorem lookup_linRepo {n i : Nat} (hi : i < n) :
    lookupCommit (linRepo n) (natSha i) = some (linCommit n i) := by
  show (linRepo n).find? (fun c => c.sha == natSha i) = some (linCommit n i)
  apply find_first_unique
  · exact List.mem_map.mpr ⟨i, List.mem_range.mpr hi, rfl⟩
  · simp [linCommit]
  · intro b hb hpb
    rcases List.mem_map.mp hb with ⟨j, _, rfl⟩
    have hj : natSha j = natSha i := by simpa [linCommit] using hpb
    rw [natSha_injective hj]

/-- The first-parent chain of the linear history from its `i`-th commit
is the rest of the history. -/
theorem fpChain_linRepo (n : Nat) : ∀ fuel i, i < n → n - i ≤ fuel →
    fpChain (linRepo n) fuel (natSha i) = (List.range' i (n - i)).map (linCommit n) := by
  intro fuel
  induction fuel with
  | zero => intro i hi hf; omega
  | succ fuel ih =>
    intro i hi hf
    simp only [fpChain, lookup_linRepo hi]
    by_cases hlast : i + 1 = n
    · have hp : (linCommit n i).parents = [] := by simp [linCommit, hlast]
      simp only [hp]
      have h1 : n - i = 1 := by omega
      rw [h1]
      rfl
    · have hp : (linCommit n i).parents = [natSha (i + 1)] := by simp [linCommit, hlast]
      simp only [hp]
      rw [ih (i + 1) (by omega) (by omega)]
      have h1 : n - i = (n - (i + 1)) + 1 := by omega
      rw [h1, List.range'_succ]
      rfl

/-- C9 (counterexample): the claim says a configured
`max_analyze_commits = 0` means the walk is unlimited and continues to
the repository root. On a linear history of 1002 commits with no
release tag, `get_all_commits_since_tag` with a configured `0` walks
only 1000 commits; the root commit — in the repository, with no
parents — is never reached: the claim as stated is false. -/
theorem c9_counterexample_zero_not_unlimited :
    (unified_walk (linRepo 1002) (natSha 0) none 0).length = 1000 ∧
    (linRepo 1002).length = 1002 ∧
    linCommit 1002 1001 ∈ linRepo 1002 ∧
    (linCommit 1002 1001).parents = [] ∧
    linCommit 1002 1001 ∉ unified_walk (linRepo 1002) (natSha 0) none 0 := by
  have hlen : (linRepo 1002).length = 1002 := by simp [linRepo]
  have hw : unified_walk (linRepo 1002) (natSha 0) none 0 =
      (List.range 1000).map (linCommit 1002) := by
    have h0 : unified_walk (linRepo 1002) (natSha 0) none 0 =
        (fpChain (linRepo 1002) ((linRepo 1002).length + 1) (natSha 0)).take 1000 := rfl
    rw [h0, hlen, fpChain_linRepo 1002 1003 0 (by omega) (by omega), Nat.sub_zero,
      ← List.map_take, ← List.range_eq_range', List.take_range]
    norm_num
  refine ⟨?_, hlen, ?_, by simp [linCommit], ?_⟩
  · rw [hw]
    simp
  · exact List.mem_map.mpr ⟨1001, List.mem_range.mpr (by omega), rfl⟩
  · rw [hw]
    intro hmem
    rcases List.mem_map.mp hmem with ⟨k, hk, hek⟩
    have hj : k = 1001 := natSha_injective (congrArg GCommit.sha hek)
    subst hj
    exact absurd (List.mem_range.mp hk) (by omega)

/-- C9 (amended): when no last-release tag exists, the walk from HEAD is
bounded by the `max_analyze_commits` setting (spec-modelled default
1000); a configured non-zero value bounds both walkers by itself, while
a configured `0` is treated as unlimited (`u32::MAX` iterations) only by
the per-package walk (`get_package_diff`) — the unified workspace walker
(`get_all_commits_since_tag`) treats `0` as a limit of 1000 commits. -/
theorem c9_no_tag_walk_bound (repo : List GCommit) (head : String) (cfg : Nat)
    (h : cfg ≠ 0) :
    DEFAULT_MAX_ANALYZE_COMMITS = 1000 ∧
    unified_no_tag_limit cfg = cfg ∧
    per_package_no_tag_limit cfg = cfg ∧
    unified_no_tag_limit 0 = 1000 ∧
    per_package_no_tag_limit 0 = 4294967295 ∧
    (unified_walk repo head none cfg).length ≤ cfg := by
  refine ⟨rfl, by simp [unified_no_tag_limit, h], by simp [per_package_no_tag_limit, h],
    rfl, rfl, ?_⟩
  have h0 : unified_walk repo head none cfg =
      (fpChain repo (repo.length + 1) head).take (unified_no_tag_limit cfg) := rfl
  have h1 : unified_no_tag_limit cfg = cfg := by simp [unified_no_tag_limit, h]
  rw [h0, List.length_take, h1]
  exact Nat.min_le_left _ _

/-- Witness for `c9_no_tag_walk_bound` at a configured limit of 5. -/
theorem c9_no_tag_walk_bound_witness :
    DEFAULT_MAX_ANALYZE_COMMITS = 1000 ∧
    unified_no_tag_limit 5 = 5 ∧
    per_package_no_tag_limit 5 = 5 ∧
    unified_no_tag_limit 0 = 1000 ∧
    per_package_no_tag_limit 0 = 4294967295 ∧
    (unified_walk [] "a" none 5).length ≤ 5 :=
  c9_no_tag_walk_bound [] "a" 5 (by decide)

end KReleaser
